import Mathlib

/-
Verification development for the color-grading engine in
`src/core/lut_engine.py` (class `LUTEngine`).

Modelling conventions:
- A PIL "RGB" image is its flattened pixel data: a list of `(r, g, b)`
  triples of 8-bit channel values (`Fin 256`).  Every per-pixel PIL
  operation used by the engine is translated channelwise.
- Python floats are modelled by exact rationals `ℚ` wherever the source
  arithmetic is exact on the inputs of interest (0.25, 0.5, 1.0, ... are
  exactly representable as doubles).  The sigmoid tone curve, which uses
  `np.exp`, is modelled over `ℝ` (ideal real semantics of the float code).
- C's `(UINT8)` / Python's `int()` truncation toward zero is the floor on
  the nonnegative values produced here; out-of-range values are clipped
  to 0..255 first exactly where the source clips them.
- External PIL primitives keep their documented pixel semantics:
  `Image.blend(im1, im2, alpha)` is `clip(in1 + alpha*(in2 - in1))`
  channelwise, `ImageEnhance.Brightness/Contrast/Color` blend against a
  black / mean-gray / grayscale degenerate image, and `convert("L")`
  uses the ITU-R 601-2 weights `(r*19595 + g*38470 + b*7471 + 2^15) >> 16`.
- The 3D LUT transform produced by `load_cube_file` and the
  `ImageEnhance.Sharpness` convolution are opaque image transforms held
  in an `Env` record: no claim depends on their pixel math, only on
  whether they are applied.
-/

namespace LutEngine

/-- An 8-bit channel value, as stored in a PIL "RGB" image. -/
abbrev Chan := Fin 256

/-- One RGB pixel. -/
abbrev Pixel := Chan × Chan × Chan

/-- The flattened pixel data of a PIL "RGB" image. -/
abbrev Image := List Pixel

/-- Channel value as an exact rational. -/
def cq (c : Chan) : ℚ := (c.val : ℚ)

/-- Clip an integer to the 8-bit range (PIL's CLIP8). -/
def clip8 (i : ℤ) : Chan :=
  ⟨min 255 (max 0 i).toNat, Nat.lt_succ_of_le (min_le_left _ _)⟩

/-- Floor a rational and clip to 0..255.  The C cast `(UINT8)` truncates
toward zero; on the nonnegative side truncation is the floor, and the
negative side is clipped to 0 either way, so this is extensionally the
source's cast-then-clip. -/
def truncClip (q : ℚ) : Chan := clip8 ⌊q⌋

/-- One channel of `PIL.Image.blend(im1, im2, alpha)`:
`out = in1 + alpha * (in2 - in1)`, cast back to `UINT8` with clipping. -/
def blendChan (α : ℚ) (a b : Chan) : Chan :=
  truncClip (cq a + α * (cq b - cq a))

/-- Pixelwise `PIL.Image.blend`. -/
def blendPix (α : ℚ) (p q : Pixel) : Pixel :=
  (blendChan α p.1 q.1, blendChan α p.2.1 q.2.1, blendChan α p.2.2 q.2.2)

/-- Imagewise `PIL.Image.blend(im1, im2, alpha)` (both images have the
same size in PIL; `zipWith` realizes the pixelwise combination). -/
def blendImage (im1 im2 : Image) (α : ℚ) : Image :=
  List.zipWith (blendPix α) im1 im2

/-- The black pixel: one pixel of `ImageEnhance.Brightness`'s degenerate
image `Image.new(mode, size, 0)`. -/
def blackPix : Pixel := (0, 0, 0)

/-- `PIL.ImageEnhance.Brightness(img).enhance(f)`:
blend the black degenerate image with `img` by factor `f`. -/
def enhanceBrightness (f : ℚ) (img : Image) : Image :=
  img.map fun p => blendPix f blackPix p

/-- One pixel of `convert("L")`: the ITU-R 601-2 luma transform
`L = (r*19595 + g*38470 + b*7471 + 32768) >> 16` used by PIL. -/
def lumChan (p : Pixel) : Chan :=
  ⟨(p.1.val * 19595 + p.2.1.val * 38470 + p.2.2.val * 7471 + 32768) / 65536, by
    have h1 := p.1.isLt
    have h2 := p.2.1.isLt
    have h3 := p.2.2.isLt
    omega⟩

/-- `PIL.ImageEnhance.Color(img).enhance(f)`: blend the grayscale
degenerate image (`convert("L").convert(mode)`) with `img` by `f`. -/
def enhanceColor (f : ℚ) (img : Image) : Image :=
  img.map fun p => blendPix f (lumChan p, lumChan p, lumChan p) p

/-- The mean used by `PIL.ImageEnhance.Contrast`:
`int(ImageStat.Stat(image.convert("L")).mean[0] + 0.5)`. -/
def contrastMean (img : Image) : ℤ :=
  ⌊((img.map fun p => ((lumChan p).val : ℚ)).sum / (img.length : ℚ)) + 1/2⌋

/-- `PIL.ImageEnhance.Contrast(img).enhance(f)`: blend the uniform
mean-gray degenerate image with `img` by `f`. -/
def enhanceContrast (f : ℚ) (img : Image) : Image :=
  let m := clip8 (contrastMean img)
  img.map fun p => blendPix f (m, m, m) p

/-- One channel of `LUTEngine._adjust_white_balance`:
`int(min(255, max(0, i * factor)))`; `int()` truncates toward zero and
the argument is already inside [0, 255], so it is the floor. -/
def wbChan (factor : ℚ) (c : Chan) : Chan :=
  ⟨(⌊min 255 (max 0 (cq c * factor))⌋).toNat, by
    have h : (⌊min (255 : ℚ) (max 0 (cq c * factor))⌋ : ℤ) ≤ 255 := by
      have hle : min (255 : ℚ) (max 0 (cq c * factor)) ≤ ((255 : ℤ) : ℚ) := by
        exact_mod_cast min_le_left _ _
      calc (⌊min (255 : ℚ) (max 0 (cq c * factor))⌋ : ℤ)
          ≤ ⌊((255 : ℤ) : ℚ)⌋ := Int.floor_le_floor hle
        _ = 255 := Int.floor_intCast 255
    omega⟩

/-- `LUTEngine._adjust_white_balance(img, temp_val, tint_val)`:
`r_factor = 1 + temp*0.25`, `b_factor = 1 - temp*0.25`,
`g_factor = 1 - tint*0.25`, each channel scaled and clamped
(0.25 is exactly representable as a double). -/
def adjustWhiteBalance (tempVal tintVal : ℚ) (img : Image) : Image :=
  if tempVal = 0 ∧ tintVal = 0 then img
  else
    let rFactor := 1 + tempVal * (1/4)
    let bFactor := 1 - tempVal * (1/4)
    let gFactor := 1 - tintVal * (1/4)
    img.map fun p => (wbChan rFactor p.1, wbChan gFactor p.2.1, wbChan bFactor p.2.2)

/-! Tone-curve stage (`LUTEngine._apply_curve`).  The source builds a
256-entry table `y` from `x = np.arange(256)`, casts it with
`astype(np.uint8)` (truncation toward zero; every produced value lies in
[0, 255]) and applies it to all three channels via `img.point(table)`. -/

/-- The raw S-Curve sigmoid `y = 255 / (1 + np.exp(-5 * (x/255 - 0.5)))`,
modelled over the reals (ideal semantics of the float code). -/
noncomputable def sCurveRaw (x : ℕ) : ℝ :=
  255 / (1 + Real.exp (-(5 : ℝ) * ((x : ℝ) / 255 - 1/2)))

/-- `y.min()` over the 256-entry S-Curve array. -/
noncomputable def sCurveMin : ℝ :=
  (Finset.range 256).inf' ⟨0, Finset.mem_range.mpr (by norm_num)⟩ sCurveRaw

/-- `y.max()` over the 256-entry S-Curve array. -/
noncomputable def sCurveMax : ℝ :=
  (Finset.range 256).sup' ⟨0, Finset.mem_range.mpr (by norm_num)⟩ sCurveRaw

/-- The final S-Curve table: `y = (y - y.min()) * 255 / (y.max() - y.min())`
then `astype(np.uint8)` (truncation; the value is nonnegative, so floor). -/
noncomputable def sCurveTable (x : ℕ) : ℕ :=
  (⌊(sCurveRaw x - sCurveMin) * 255 / (sCurveMax - sCurveMin)⌋).toNat

/-- The Soft-High table `y = np.where(x < 128, x, 128 + (x - 128) * 0.8)`.
The float literal 0.8 is within 5.6e-17 of 4/5; over the relevant range
the products round to the same `uint8` value, so 4/5 is used exactly. -/
def softHighTable (x : ℕ) : ℕ :=
  if x < 128 then x else (⌊(128 : ℚ) + ((x : ℚ) - 128) * (4/5)⌋).toNat

/-- The Lift-Shadow table `y = np.where(x > 64, x, x + (64 - x) * 0.3)`
(0.3 modelled by the exact rational 3/10, as for Soft-High). -/
def liftShadowTable (x : ℕ) : ℕ :=
  if x > 64 then x else (⌊(x : ℚ) + ((64 : ℚ) - (x : ℚ)) * (3/10)⌋).toNat

/-- Apply a 256-entry table to one channel (`img.point(table)`; PIL
stores table entries as `uint8`, hence the `% 256`). -/
def pointChan (t : ℕ → ℕ) (c : Chan) : Chan :=
  ⟨t c.val % 256, Nat.mod_lt _ (by norm_num)⟩

/-- Apply a 256-entry table to all three channels of every pixel
(the source replicates the same table for R, G and B). -/
def pointImage (t : ℕ → ℕ) (img : Image) : Image :=
  img.map fun p => (pointChan t p.1, pointChan t p.2.1, pointChan t p.2.2)

/-- `LUTEngine._apply_curve(img, curve_type)`.  `"Linear"` and falsy
values (the empty string models `not curve_type`) return the image
untouched, as does any unrecognized name. -/
noncomputable def applyCurve (img : Image) (curveType : String) : Image :=
  if curveType = "Linear" ∨ curveType = "" then img
  else if curveType = "S-Curve" then pointImage sCurveTable img
  else if curveType = "Soft-High" then pointImage softHighTable img
  else if curveType = "Lift-Shadow" then pointImage liftShadowTable img
  else img

/-! A model of `difflib.get_close_matches(word, keys, n=1, cutoff=0.6)`
as used on line 129 of `lut_engine.py`.  `SequenceMatcher` has no junk
here (`isjunk=None` and `autojunk` only fires for sequences of 200+
elements; LUT filenames are far shorter), so `ratio()` is
`2*M/T` where `M` is the total size of the matching blocks found by the
recursive longest-contiguous-block algorithm and `T` the sum of the two
lengths.  `find_longest_match` scans rows `i` ascending and positions
`j` ascending, updating only on a strictly larger run, which selects,
among the maximal-length common blocks, the one with lexicographically
smallest `(i, j)`; the brute-force scan below picks the same block. -/

/-- Length of the common run of `a` and `b` starting at their heads. -/
def runLen : List Char → List Char → ℕ
  | x :: xs, y :: ys => if x = y then runLen xs ys + 1 else 0
  | _, _ => 0

/-- One row of the longest-match scan: `asuf` is the suffix of `a` at
row `i`; `j` walks the suffixes of `b`; the best triple is replaced
only by a strictly longer run (difflib's update rule). -/
def flmRow (asuf : List Char) (i : ℕ) : ℕ → List Char → ℕ × ℕ × ℕ → ℕ × ℕ × ℕ
  | _, [], (bi, bj, bk) => (bi, bj, bk)
  | j, bsuf@(_ :: btl), (bi, bj, bk) =>
    let k := runLen asuf bsuf
    flmRow asuf i (j + 1) btl (if k > bk then (i, j, k) else (bi, bj, bk))

/-- All rows of the longest-match scan, `i` ascending. -/
def flmAll (b : List Char) : ℕ → List Char → ℕ × ℕ × ℕ → ℕ × ℕ × ℕ
  | _, [], (bi, bj, bk) => (bi, bj, bk)
  | i, asuf@(_ :: atl), best => flmAll b (i + 1) atl (flmRow asuf i 0 b best)

/-- `SequenceMatcher.find_longest_match` over whole sequences: the
longest block with `a[i:i+size] == b[j:j+size]`, ties resolved to the
smallest `(i, j)` lexicographically, which is exactly what difflib's
`i` ascending / `j` ascending / strictly-greater-only scan keeps. -/
def findLongestMatch (a b : List Char) : ℕ × ℕ × ℕ :=
  flmAll b 0 a (0, 0, 0)

/-- Total matched size over `SequenceMatcher.get_matching_blocks`:
recursively take the longest block and recurse on both sides.  The fuel
(`a.length + b.length` at the top call) strictly bounds the recursion
depth, since every recursive call drops at least the matched block. -/
def matchingSizeFuel : ℕ → List Char → List Char → ℕ
  | 0, _, _ => 0
  | fuel + 1, a, b =>
    let m := findLongestMatch a b
    if m.2.2 = 0 then 0
    else
      matchingSizeFuel fuel (a.take m.1) (b.take m.2.1) + m.2.2 +
        matchingSizeFuel fuel (a.drop (m.1 + m.2.2)) (b.drop (m.2.1 + m.2.2))

/-- Total size `M` of the matching blocks of `a` against `b`. -/
def matchingSize (a b : List Char) : ℕ :=
  matchingSizeFuel (a.length + b.length) a b

/-- `SequenceMatcher.ratio()` for key `k` against word `w`: `2*M/T`. -/
def ratioQ (k w : List Char) : ℚ :=
  2 * (matchingSize k w : ℚ) / ((k.length + w.length : ℕ) : ℚ)

/-- Acceptance test `ratio() >= cutoff` at `cutoff = 0.6`.  The double
literal 0.6 sits 2.3e-17 below 3/5; no ratio `2*M/T` with the string
lengths at play falls in that gap, so `2*M/T ≥ 3/5`, i.e.
`10*M ≥ 3*T`, decides acceptance exactly. -/
def ratioOK (k w : List Char) : Bool :=
  10 * matchingSize k w ≥ 3 * (k.length + w.length)

/-- Python string `<` on the code points (used by `heapq.nlargest` to
order equal-ratio `(ratio, key)` tuples). -/
def strLtChars : List Char → List Char → Bool
  | [], [] => false
  | [], _ :: _ => true
  | _ :: _, [] => false
  | x :: xs, y :: ys => if x = y then strLtChars xs ys else decide (x < y)

/-- Select the largest `(ratio, key)` pair, as `heapq.nlargest(1, ...)`
does: a candidate replaces the current best on a strictly larger ratio,
or on an equal ratio and a larger key string. -/
def pickBest (w : List Char) : Option (List Char) → List (List Char) → Option (List Char)
  | acc, [] => acc
  | none, k :: ks => pickBest w (some k) ks
  | some b, k :: ks =>
    if ratioQ k w > ratioQ b w ∨ (ratioQ k w = ratioQ b w ∧ strLtChars b k = true) then
      pickBest w (some k) ks
    else
      pickBest w (some b) ks

/-- `difflib.get_close_matches(w, keys, n=1, cutoff=0.6)`, reduced to
its single best result (`some` of the winning key, or `none`). -/
def bestMatch (keys : List (List Char)) (w : List Char) : Option (List Char) :=
  pickBest w none (keys.filter fun k => ratioOK k w)

/-! The engine state and `LUTEngine.apply_lut` itself. -/

/-- The environment a call to `apply_lut` runs against:
`pathExists` models `os.path.exists`; `index` models `self.lut_index`
(a dict from lowercased basenames to path lists, in insertion order;
`_build_index` only ever appends to a list it just created, so every
stored list is nonempty); `loadLut` models `load_cube_file` — `.ok`
yields the 3D-LUT transform `img.filter(lut)` applies (PIL's
`Color3DLUT` preserves the image size), `.error` carries the exception
text of a corrupt file; `sharpen` models
`ImageEnhance.Sharpness(img).enhance(f)`, whose convolution kernel no
claim depends on. -/
structure Env where
  pathExists : String → Bool
  index : List (String × List String)
  loadLut : String → Except String (Image → Image)
  sharpen : ℚ → Image → Image

/-- The index invariant established by `_build_index`: every stored
path list is nonempty (a key is only created when a path is appended). -/
def wfIndex (env : Env) : Prop :=
  ∀ e ∈ env.index, e.2 ≠ []

/-- ASCII lowercasing of one character, as Python's `str.lower` acts on
the ASCII filenames at play here. -/
def toLowerChar (c : Char) : Char :=
  if 'A' ≤ c ∧ c ≤ 'Z' then Char.ofNat (c.toNat + 32) else c

/-- Python's `str.lower()` on the character list of a string. -/
def lowerChars (l : List Char) : List Char := l.map toLowerChar

/-- `os.path.basename`: the part after the last `/`. -/
def pyBasenameChars (l : List Char) : List Char :=
  (l.reverse.takeWhile (fun c => ¬ c = '/')).reverse

/-- The lowercased basename of an identifier, the engine's
`os.path.basename(...).lower()` idiom (lines 123 and 141). -/
def lookupChars (s : String) : List Char :=
  lowerChars (pyBasenameChars s.toList)

/-- `dict.get`: the value list of the first (only) entry with this key. -/
def indexGet (idx : List (String × List String)) (k : List Char) : Option (List String) :=
  (idx.find? fun e => e.1.toList = k).map (·.2)

/-- The keys of the index, in insertion order (`list(dict.keys())`). -/
def indexKeys (idx : List (String × List String)) : List String :=
  idx.map (·.1)

/-- Substring test, with the needle as first argument (`"log" in s`). -/
def listStartsWith : List Char → List Char → Bool
  | [], _ => true
  | _ :: _, [] => false
  | x :: xs, y :: ys => x = y && listStartsWith xs ys

/-- Substring containment (Python's `in` on strings). -/
def containsSub (needle : List Char) : List Char → Bool
  | [] => listStartsWith needle []
  | c :: t => listStartsWith needle (c :: t) || containsSub needle t

/-- The safety-governor marker test of line 141:
`"log" in os.path.basename(target_path).lower()`. -/
def hasLogMarker (s : String) : Bool :=
  containsSub "log".toList (lookupChars s)

/-- LUT resolution, lines 119-130 of `apply_lut`: exact filesystem
path, then exact lowercased-basename index lookup (`candidates[0]`),
then `difflib.get_close_matches(..., n=1, cutoff=0.6)` over the index
keys.  An empty candidate list is falsy in Python, hence the
`some (p :: _)` pattern; the `.head?` on the fuzzy branch is total
where Python indexes `[0]` (see `wfIndex`). -/
def resolveLut (env : Env) (lutNameOrPath : String) : Option String :=
  if env.pathExists lutNameOrPath then some lutNameOrPath
  else
    let lookupName := lookupChars lutNameOrPath
    match indexGet env.index lookupName with
    | some (p :: _) => some p
    | _ =>
      match bestMatch ((indexKeys env.index).map String.toList) lookupName with
      | some key => ((indexGet env.index key).getD []).head?
      | none => none

/-- A dynamically-typed caller value for `intensity`: a number, a
string `float()` parses to the given rational, or a string `float()`
rejects with a `ValueError`. -/
inductive PyVal where
  | num (q : ℚ)
  | numStr (s : String) (q : ℚ)
  | badStr (s : String)
deriving DecidableEq

/-- Python's `float(...)` on a `PyVal`; the error text is what `str(e)`
yields for the `ValueError` the outer handler catches. -/
def pyFloat : PyVal → Except String ℚ
  | .num q => .ok q
  | .numStr _ q => .ok q
  | .badStr s => .error ("could not convert string to float: '" ++ s ++ "'")

/-- Line 138: `intensity = max(0.0, min(1.0, float(intensity)))`. -/
def clampIntensity (q : ℚ) : ℚ := max 0 (min 1 q)

/-- Lines 138-143: clamp, then the Log-LUT governor — if the resolved
basename contains "log" (case-insensitively) and the clamped intensity
exceeds 0.4, force it to 0.35.  (The double literals 0.4 and 0.35 are
modelled by 2/5 and 7/20; no clamped rational of interest falls inside
the 2e-17 gaps between the literals and these rationals.) -/
def effectiveIntensity (targetPath : String) (i0 : ℚ) : ℚ :=
  let i1 := clampIntensity i0
  if hasLogMarker targetPath = true ∧ i1 > 2/5 then 7/20 else i1

/-- Lines 101-112 of `apply_lut`: the tone-adjustment block, in source
order — brightness, white balance, contrast, saturation, each behind
its identity-skipping guard. -/
def toneStage (brightness saturation temperature tint contrast : ℚ) (img : Image) : Image :=
  let img1 := if brightness ≠ 1 then enhanceBrightness brightness img else img
  let img2 := if temperature ≠ 0 ∨ tint ≠ 0 then adjustWhiteBalance temperature tint img1 else img1
  let img3 := if contrast ≠ 1 then enhanceContrast contrast img2 else img2
  if saturation ≠ 1 then enhanceColor saturation img3 else img3

/-- Lines 101-116: tone adjustments followed by the curve stage. -/
noncomputable def preprocess (brightness saturation temperature tint contrast : ℚ)
    (curveType : String) (img : Image) : Image :=
  applyCurve (toneStage brightness saturation temperature tint contrast img) curveType

/-- The status string of the not-found early return (line 135). -/
def notFoundStatus : String := "找不到 LUT，僅執行基礎修圖"

/-- The status string of a successful application (line 162). -/
def successStatus : String := "成功"

/-- `LUTEngine.apply_lut`, lines 97-166, for an image that opened
successfully (the function's own `PIL.Image.open` step).  The result
pairs the possibly-null image with the status string, exactly as the
source returns `(image_or_None, message)`; the `ValueError` a
non-numeric `intensity` raises at line 138 is converted by the outer
`except` into `(None, str(e))`. -/
noncomputable def applyLut (env : Env) (img : Image) (lutNameOrPath : String)
    (intensity : PyVal) (brightness saturation temperature tint contrast : ℚ)
    (curveType : String) (sharpness : ℚ) : Option Image × String :=
  let img5 := preprocess brightness saturation temperature tint contrast curveType img
  match resolveLut env lutNameOrPath with
  | none => (some img5, notFoundStatus)
  | some targetPath =>
    match pyFloat intensity with
    | .error e => (none, e)
    | .ok i0 =>
      let i2 := effectiveIntensity targetPath i0
      match env.loadLut targetPath with
      | .error e => (none, "LUT 檔案損壞: " ++ e)
      | .ok lut =>
        let filteredImg := lut img5
        let finalImg := if i2 < 1 then blendImage img5 filteredImg i2 else filteredImg
        let finalImg2 := if sharpness ≠ 1 then env.sharpen sharpness finalImg else finalImg
        (some finalImg2, successStatus)

/-- The tone-adjustment order stated in the specification (§4.3):
white balance first, then brightness, then contrast, then saturation,
with the same identity-skipping guards.  Defined for comparison with
the source's `toneStage`. -/
def toneSpecOrder (brightness saturation temperature tint contrast : ℚ) (img : Image) : Image :=
  let img1 := if temperature ≠ 0 ∨ tint ≠ 0 then adjustWhiteBalance temperature tint img else img
  let img2 := if brightness ≠ 1 then enhanceBrightness brightness img1 else img1
  let img3 := if contrast ≠ 1 then enhanceContrast contrast img2 else img2
  if saturation ≠ 1 then enhanceColor saturation img3 else img3

/-! Evaluation and identity lemmas about the pixel primitives. -/

lemma clip8_eq {n : ℕ} (hn : n < 256) : clip8 (n : ℤ) = ⟨n, hn⟩ := by
  unfold clip8
  apply Fin.ext
  simp
  omega

lemma truncClip_eq {q : ℚ} {n : ℕ} (hn : n < 256)
    (h1 : (n : ℚ) ≤ q) (h2 : q < n + 1) : truncClip q = ⟨n, hn⟩ := by
  unfold truncClip
  have hf : ⌊q⌋ = (n : ℤ) := by
    rw [Int.floor_eq_iff]
    constructor
    · exact_mod_cast h1
    · push_cast
      exact h2
  rw [hf, clip8_eq hn]

lemma blendChan_eq {α : ℚ} {a b : Chan} {n : ℕ} (hn : n < 256)
    (h1 : (n : ℚ) ≤ (a.val : ℚ) + α * ((b.val : ℚ) - (a.val : ℚ)))
    (h2 : (a.val : ℚ) + α * ((b.val : ℚ) - (a.val : ℚ)) < n + 1) :
    blendChan α a b = ⟨n, hn⟩ :=
  truncClip_eq hn h1 h2

lemma wbChan_eq {f : ℚ} {c : Chan} {n : ℕ} (hn : n < 256)
    (h1 : (n : ℚ) ≤ min 255 (max 0 (cq c * f)))
    (h2 : min 255 (max 0 (cq c * f)) < n + 1) :
    wbChan f c = ⟨n, hn⟩ := by
  unfold wbChan
  apply Fin.ext
  have hf : ⌊min 255 (max 0 (cq c * f))⌋ = (n : ℤ) := by
    rw [Int.floor_eq_iff]
    constructor
    · exact_mod_cast h1
    · push_cast
      exact h2
  simp [hf]

lemma blendChan_zero (a b : Chan) : blendChan 0 a b = a := by
  have h : blendChan 0 a b = ⟨a.val, a.isLt⟩ := by
    apply blendChan_eq
    · simp
    · simp
  simpa using h

lemma blendChan_one (a b : Chan) : blendChan 1 a b = b := by
  have h : blendChan 1 a b = ⟨b.val, b.isLt⟩ := by
    apply blendChan_eq
    · simp
    · simp
  simpa using h

lemma blendPix_zero (p q : Pixel) : blendPix 0 p q = p := by
  simp [blendPix, blendChan_zero]

lemma blendPix_one (p q : Pixel) : blendPix 1 p q = q := by
  simp [blendPix, blendChan_one]

lemma blendImage_zero :
    ∀ im1 im2 : Image, im1.length ≤ im2.length → blendImage im1 im2 0 = im1 := by
  intro im1
  induction im1 with
  | nil => intro im2 _; rfl
  | cons p t ih =>
    intro im2 h
    cases im2 with
    | nil => simp at h
    | cons q t2 =>
      simp only [blendImage, List.zipWith]
      rw [blendPix_zero]
      have := ih t2 (by simpa using h)
      simpa [blendImage] using this

lemma enhanceBrightness_one (img : Image) : enhanceBrightness 1 img = img := by
  simp [enhanceBrightness, blendPix_one]

lemma enhanceContrast_one (img : Image) : enhanceContrast 1 img = img := by
  simp [enhanceContrast, blendPix_one]

lemma enhanceColor_one (img : Image) : enhanceColor 1 img = img := by
  simp [enhanceColor, blendPix_one]

lemma adjustWhiteBalance_zero (img : Image) : adjustWhiteBalance 0 0 img = img := by
  simp [adjustWhiteBalance]

lemma applyCurve_linear (img : Image) : applyCurve img "Linear" = img := by
  unfold applyCurve
  rw [if_pos (Or.inl rfl)]

lemma clampIntensity_idem (q : ℚ) : clampIntensity (clampIntensity q) = clampIntensity q := by
  unfold clampIntensity
  have h1 : max 0 (min 1 q) ≤ 1 := max_le (by norm_num) (min_le_left _ _)
  rw [min_eq_right h1, ← max_assoc, max_self]

lemma effectiveIntensity_clamp (t : String) (q : ℚ) :
    effectiveIntensity t (clampIntensity q) = effectiveIntensity t q := by
  unfold effectiveIntensity
  rw [clampIntensity_idem]

/-! Lemmas about the fuzzy-match selection. -/

lemma pickBest_some_isSome (w : List Char) :
    ∀ (l : List (List Char)) (b : List Char), ∃ k, pickBest w (some b) l = some k := by
  intro l
  induction l with
  | nil => intro b; exact ⟨b, rfl⟩
  | cons x xs ih =>
    intro b
    unfold pickBest
    by_cases h : ratioQ x w > ratioQ b w ∨ (ratioQ x w = ratioQ b w ∧ strLtChars b x = true)
    · rw [if_pos h]; exact ih x
    · rw [if_neg h]; exact ih b

lemma pickBest_mem (w : List Char) :
    ∀ (l : List (List Char)) (acc : Option (List Char)) (k : List Char),
      pickBest w acc l = some k → acc = some k ∨ k ∈ l := by
  intro l
  induction l with
  | nil =>
    intro acc k h
    cases acc with
    | none => simp [pickBest] at h
    | some b => left; simpa [pickBest] using h
  | cons x xs ih =>
    intro acc k h
    cases acc with
    | none =>
      have := ih (some x) k (by simpa [pickBest] using h)
      rcases this with h1 | h1
      · right; simp at h1; simp [h1]
      · right; simp [h1]
    | some b =>
      unfold pickBest at h
      by_cases hc : ratioQ x w > ratioQ b w ∨ (ratioQ x w = ratioQ b w ∧ strLtChars b x = true)
      · rw [if_pos hc] at h
        rcases ih (some x) k h with h1 | h1
        · right; simp at h1; simp [h1]
        · right; simp [h1]
      · rw [if_neg hc] at h
        rcases ih (some b) k h with h1 | h1
        · left; exact h1
        · right; simp [h1]

lemma bestMatch_none_iff (keys : List (List Char)) (w : List Char) :
    bestMatch keys w = none ↔ (keys.filter fun k => ratioOK k w) = [] := by
  unfold bestMatch
  constructor
  · intro h
    cases hf : keys.filter fun k => ratioOK k w with
    | nil => rfl
    | cons x xs =>
      rw [hf] at h
      simp only [pickBest] at h
      obtain ⟨k, hk⟩ := pickBest_some_isSome w xs x
      rw [hk] at h
      exact absurd h (by simp)
  · intro h
    rw [h]
    rfl

lemma bestMatch_some_mem {keys : List (List Char)} {w k : List Char}
    (h : bestMatch keys w = some k) : k ∈ keys ∧ ratioOK k w = true := by
  unfold bestMatch at h
  have hm := pickBest_mem w _ none k h
  rcases hm with h1 | h1
  · exact absurd h1 (by simp)
  · have := List.mem_filter.mp h1
    exact ⟨this.1, this.2⟩

/-! Concrete engine environments used by counterexamples and witnesses. -/

/-- An engine whose index holds exactly `fuji_velvia.cube`, with no
identifier naming an existing filesystem path. -/
def envFuji : Env where
  pathExists := fun _ => false
  index := [("fuji_velvia.cube", ["luts/fuji_velvia.cube"])]
  loadLut := fun _ => .ok fun im => im
  sharpen := fun _ im => im

/-- An engine on which every identifier is an existing path and every
LUT file loads as the identity transform. -/
def envExact : Env where
  pathExists := fun _ => true
  index := []
  loadLut := fun _ => .ok fun im => im
  sharpen := fun _ im => im

/-- An engine on which every identifier is an existing path but every
LUT file is corrupt. -/
def envCorrupt : Env where
  pathExists := fun _ => true
  index := []
  loadLut := fun _ => .error "malformed grid"
  sharpen := fun _ im => im

/-- An engine with an empty index and no existing paths: every
resolution fails. -/
def envEmpty : Env where
  pathExists := fun _ => false
  index := []
  loadLut := fun _ => .error "unreachable"
  sharpen := fun _ im => im

/-! Claim C4. -/

/-- C4: when the LUT identifier fails all three resolution steps, the
request does not fail — `apply_lut` returns the tone/curve-adjusted
image (non-null) together with the status explaining that no LUT was
applied. -/
theorem resolution_failure_keeps_adjusted_image
    (env : Env) (img : Image) (l : String) (i : PyVal)
    (b sa t tn c : ℚ) (cv : String) (sh : ℚ)
    (hres : resolveLut env l = none) :
    applyLut env img l i b sa t tn c cv sh =
      (some (preprocess b sa t tn c cv img), notFoundStatus) := by
  simp only [applyLut, hres]

/-- Witness for C4 at a concrete unresolvable identifier. -/
theorem resolution_failure_keeps_adjusted_image_witness :
    applyLut envEmpty [(10, 20, 30)] "missing.cube" (.num (1/2)) 1 1 0 0 1 "Linear" 1 =
      (some (preprocess 1 1 0 0 1 "Linear" [(10, 20, 30)]), notFoundStatus) :=
  resolution_failure_keeps_adjusted_image envEmpty [(10, 20, 30)] "missing.cube"
    (.num (1/2)) 1 1 0 0 1 "Linear" 1 (by decide)

/-! Claim C10. -/

/-- C10: whenever LUT resolution fails, the fallback image is
independent of the sharpness parameter — the not-found early return
happens before the post-stage sharpness adjustment. -/
theorem notfound_fallback_ignores_sharpness
    (env : Env) (img : Image) (l : String) (i : PyVal)
    (b sa t tn c : ℚ) (cv : String) (sh : ℚ)
    (hres : resolveLut env l = none) :
    applyLut env img l i b sa t tn c cv sh =
      applyLut env img l i b sa t tn c cv 1 := by
  simp only [applyLut, hres]

/-- Witness for C10 at sharpness 3. -/
theorem notfound_fallback_ignores_sharpness_witness :
    applyLut envEmpty [(10, 20, 30)] "missing2.cube" (.num 1) 1 1 0 0 1 "Linear" 3 =
      applyLut envEmpty [(10, 20, 30)] "missing2.cube" (.num 1) 1 1 0 0 1 "Linear" 1 :=
  notfound_fallback_ignores_sharpness envEmpty [(10, 20, 30)] "missing2.cube"
    (.num 1) 1 1 0 0 1 "Linear" 3 (by decide)

/-! Claim C6. -/

/-- C6: out-of-range intensities are silently clamped to [0, 1] before
blending, never rejected: a numeric intensity behaves exactly as its
clamped value, and in particular -0.5 behaves as 0 and 1.7 as 1. -/
theorem intensity_clamped_never_rejected
    (env : Env) (img : Image) (l : String)
    (b sa t tn c : ℚ) (cv : String) (sh : ℚ) :
    (∀ q : ℚ, applyLut env img l (.num q) b sa t tn c cv sh =
        applyLut env img l (.num (clampIntensity q)) b sa t tn c cv sh)
    ∧ applyLut env img l (.num (-(1/2))) b sa t tn c cv sh =
        applyLut env img l (.num 0) b sa t tn c cv sh
    ∧ applyLut env img l (.num (17/10)) b sa t tn c cv sh =
        applyLut env img l (.num 1) b sa t tn c cv sh := by
  have hgen : ∀ q : ℚ, applyLut env img l (.num q) b sa t tn c cv sh =
      applyLut env img l (.num (clampIntensity q)) b sa t tn c cv sh := by
    intro q
    unfold applyLut
    cases resolveLut env l with
    | none => rfl
    | some tp => simp only [pyFloat, effectiveIntensity_clamp]
  refine ⟨hgen, ?_, ?_⟩
  · rw [hgen (-(1/2)),
      show clampIntensity (-(1/2)) = 0 by
        unfold clampIntensity
        rw [min_eq_right (by norm_num), max_eq_left (by norm_num)]]
  · rw [hgen (17/10),
      show clampIntensity (17/10) = 1 by
        unfold clampIntensity
        rw [min_eq_left (by norm_num), max_eq_right (by norm_num)]]

/-! Claim C2 (corrected). -/

/-- C2 counterexample: a LUT that resolves but fails to parse makes
`apply_lut` return a null image (`None`) with the corruption status —
not the tone/curve-adjusted image the claim promises. -/
theorem corrupt_lut_returns_null_image :
    (applyLut envCorrupt [(10, 20, 30)] "bad.cube" (.num 1) 1 1 0 0 1 "Linear" 1).1 = none
    ∧ (applyLut envCorrupt [(10, 20, 30)] "bad.cube" (.num 1) 1 1 0 0 1 "Linear" 1).2 =
        "LUT 檔案損壞: malformed grid" :=
  ⟨rfl, rfl⟩

/-- C2 amended: on a corrupt LUT the status reports the corruption and
no transform is applied, but the returned image is null (`None`), not
the tone/curve-adjusted image. -/
theorem corrupt_lut_reports_and_nulls
    (env : Env) (img : Image) (l : String) (i : PyVal)
    (b sa t tn c : ℚ) (cv : String) (sh : ℚ) (tp : String) (i0 : ℚ) (e : String)
    (hres : resolveLut env l = some tp) (hi : pyFloat i = .ok i0)
    (hload : env.loadLut tp = .error e) :
    applyLut env img l i b sa t tn c cv sh = (none, "LUT 檔案損壞: " ++ e) := by
  simp only [applyLut, hres, hi, hload]

/-- Witness for the amended C2 at a concrete corrupt file. -/
theorem corrupt_lut_reports_and_nulls_witness :
    applyLut envCorrupt [(1, 2, 3)] "broken.cube" (.num (1/2)) 1 1 0 0 1 "Linear" 1 =
      (none, "LUT 檔案損壞: " ++ "malformed grid") :=
  corrupt_lut_reports_and_nulls envCorrupt [(1, 2, 3)] "broken.cube" (.num (1/2))
    1 1 0 0 1 "Linear" 1 "broken.cube" (1/2) "malformed grid" (by decide) rfl rfl

/-! Claim C9 (corrected). -/

/-- C9 counterexample: a non-numeric intensity string is not coerced —
`float()` raises, the outer handler catches, and the whole request is
rejected with a null image and the exception text as status. -/
theorem invalid_intensity_rejects_request :
    (applyLut envExact [(10, 20, 30)] "some.cube" (.badStr "not_a_number")
        1 1 0 0 1 "Linear" 1).1 = none
    ∧ (applyLut envExact [(10, 20, 30)] "some.cube" (.badStr "not_a_number")
        1 1 0 0 1 "Linear" 1).2 =
      "could not convert string to float: 'not_a_number'" :=
  ⟨rfl, rfl⟩

/-- C9 amended: numeric strings are coerced by `float()` and processed
exactly like numbers, but a non-numeric intensity string aborts the
whole request with a null image and the `ValueError` text (the
coerce-to-default policy lives in the planner, not in `apply_lut`). -/
theorem invalid_parameter_policy
    (env : Env) (img : Image) (l : String)
    (b sa t tn c : ℚ) (cv : String) (sh : ℚ) :
    (∀ (s : String) (q : ℚ),
        applyLut env img l (.numStr s q) b sa t tn c cv sh =
          applyLut env img l (.num q) b sa t tn c cv sh)
    ∧ (∀ (s : String) (tp : String), resolveLut env l = some tp →
        applyLut env img l (.badStr s) b sa t tn c cv sh =
          (none, "could not convert string to float: '" ++ s ++ "'")) := by
  constructor
  · intro s q
    rfl
  · intro s tp hres
    simp only [applyLut, hres, pyFloat]

/-- Witness for the amended C9. -/
theorem invalid_parameter_policy_witness :
    applyLut envExact [(9, 9, 9)] "x.cube" (.badStr "oops") 1 1 0 0 1 "Linear" 1 =
      (none, "could not convert string to float: '" ++ "oops" ++ "'") :=
  (invalid_parameter_policy envExact [(9, 9, 9)] "x.cube" 1 1 0 0 1 "Linear" 1).2
    "oops" "x.cube" (by decide)

/-! Claim C1 (corrected). -/

lemma clampIntensity_eval_in01 {q : ℚ} (h0 : 0 ≤ q) (h1 : q ≤ 1) : clampIntensity q = q := by
  unfold clampIntensity
  rw [min_eq_right h1, max_eq_right h0]

/-- C1 counterexample: with the log-marked LUT `SLog3_to_Rec709.cube`,
a requested intensity of 0.38 is used as-is — 0.38 > 0.35, refuting
"forced down to at most 0.35 regardless of the caller-requested value"
(the code only clamps above 0.4) — and a successful application returns
the plain success status, not a warning (the warning only goes to the
log). -/
theorem log_governor_gap :
    effectiveIntensity "SLog3_to_Rec709.cube" (38/100) = 19/50
    ∧ ¬ ((19/50 : ℚ) ≤ 7/20)
    ∧ (applyLut envExact [(10, 20, 30)] "SLog3_to_Rec709.cube" (.num (9/10))
        1 1 0 0 1 "Linear" 1).2 = successStatus := by
  refine ⟨?_, by norm_num, rfl⟩
  have hc : clampIntensity (38/100) = 38/100 :=
    clampIntensity_eval_in01 (by norm_num) (by norm_num)
  simp only [effectiveIntensity, hc]
  rw [if_neg]
  · norm_num
  · rintro ⟨-, hb⟩
    norm_num at hb

/-- C1 amended: when the resolved LUT basename contains "log"
(case-insensitively) and the clamped requested intensity exceeds 0.4,
the blend intensity is forced to 0.35 (so a requested 0.9 on
`SLog3_to_Rec709.cube` is applied at 0.35); requested intensities at or
below 0.4 pass through unchanged, the returned status on success is the
plain success string (the warning is only logged), and `apply_lut`
takes no log-simulation flag, so the clamp is independent of any such
request. -/
theorem log_governor_amended :
    (∀ (tp : String) (i0 : ℚ), hasLogMarker tp = true → clampIntensity i0 > 2/5 →
        effectiveIntensity tp i0 = 7/20)
    ∧ effectiveIntensity "SLog3_to_Rec709.cube" (9/10) = 7/20
    ∧ (∀ (env : Env) (img : Image) (l : String) (i : PyVal) (b sa t tn c : ℚ)
        (cv : String) (sh : ℚ) (tp : String) (i0 : ℚ) (lut : Image → Image),
        resolveLut env l = some tp → pyFloat i = .ok i0 → env.loadLut tp = .ok lut →
        (applyLut env img l i b sa t tn c cv sh).2 = successStatus) := by
  have hrule : ∀ (tp : String) (i0 : ℚ), hasLogMarker tp = true → clampIntensity i0 > 2/5 →
      effectiveIntensity tp i0 = 7/20 := by
    intro tp i0 hm hi
    simp only [effectiveIntensity]
    rw [if_pos ⟨hm, hi⟩]
  refine ⟨hrule, ?_, ?_⟩
  · apply hrule
    · decide
    · rw [clampIntensity_eval_in01 (by norm_num) (by norm_num)]
      norm_num
  · intro env img l i b sa t tn c cv sh tp i0 lut hres hi hload
    simp only [applyLut, hres, hi, hload]

/-- Witness for the amended C1 at a concrete log-marked name. -/
theorem log_governor_amended_witness :
    effectiveIntensity "a_log.cube" 1 = 7/20 :=
  log_governor_amended.1 "a_log.cube" 1 (by decide)
    (by rw [clampIntensity_eval_in01 (by norm_num) (by norm_num)]; norm_num)

/-! Claim C5. -/

lemma preprocess_identity (img : Image) : preprocess 1 1 0 0 1 "Linear" img = img := by
  unfold preprocess toneStage
  simp [applyCurve_linear]

lemma effectiveIntensity_zero (tp : String) : effectiveIntensity tp 0 = 0 := by
  have hc : clampIntensity 0 = 0 := clampIntensity_eval_in01 le_rfl (by norm_num)
  simp only [effectiveIntensity, hc]
  rw [if_neg]
  rintro ⟨-, hb⟩
  norm_num at hb

/-- C5: with every grading parameter at its identity value and
intensity 0, a resolvable and loadable LUT notwithstanding, `apply_lut`
returns a pixel-identical copy of the input image — the tone, curve and
sharpness stages all skip, and blending at intensity 0 reproduces the
pre-LUT image exactly. -/
theorem identity_params_return_input
    (env : Env) (img : Image) (l tp : String) (lut : Image → Image)
    (hres : resolveLut env l = some tp) (hload : env.loadLut tp = .ok lut)
    (hlen : img.length ≤ (lut img).length) :
    applyLut env img l (.num 0) 1 1 0 0 1 "Linear" 1 = (some img, successStatus) := by
  simp only [applyLut, hres, pyFloat, hload, preprocess_identity, effectiveIntensity_zero]
  rw [if_pos (by norm_num : (0 : ℚ) < 1), blendImage_zero img (lut img) hlen]
  simp

/-- Witness for C5 on a concrete one-pixel image with an identity LUT. -/
theorem identity_params_return_input_witness :
    applyLut envExact [(5, 6, 7)] "any.cube" (.num 0) 1 1 0 0 1 "Linear" 1 =
      (some [(5, 6, 7)], successStatus) :=
  identity_params_return_input envExact [(5, 6, 7)] "any.cube" "any.cube" (fun im => im)
    (by decide) rfl (by decide)

/-! Claim C3 (corrected). -/

lemma wbChan_in_range {f : ℚ} {c : Chan} {n : ℕ} (hn : n < 256)
    (h0 : 0 ≤ (c.val : ℚ) * f) (h255 : (c.val : ℚ) * f ≤ 255)
    (h1 : (n : ℚ) ≤ (c.val : ℚ) * f) (h2 : (c.val : ℚ) * f < n + 1) :
    wbChan f c = ⟨n, hn⟩ := by
  apply wbChan_eq hn <;> simp only [cq] <;> rw [max_eq_right h0, min_eq_right h255]
  · exact h1
  · exact h2

lemma wbChan_clamp_top {f : ℚ} {c : Chan} (h : 255 ≤ (c.val : ℚ) * f) :
    wbChan f c = ⟨255, by norm_num⟩ := by
  apply wbChan_eq <;> simp only [cq] <;>
    rw [max_eq_right (le_trans (by norm_num) h), min_eq_left h] <;> norm_num

lemma enhanceBrightness_half_blue :
    enhanceBrightness (1/2) [((0 : Chan), (0 : Chan), (255 : Chan))] = [(0, 0, 127)] := by
  simp only [enhanceBrightness, List.map, blendPix, blackPix]
  rw [show blendChan (1/2) (0 : Chan) (0 : Chan) = (0 : Chan) by
        apply blendChan_eq <;> norm_num [show ((0 : Chan)).val = 0 from rfl],
      show blendChan (1/2) (0 : Chan) (255 : Chan) = (127 : Chan) by
        apply blendChan_eq <;>
          norm_num [show ((0 : Chan)).val = 0 from rfl, show ((255 : Chan)).val = 255 from rfl]]

lemma wb_warm_on_127 :
    adjustWhiteBalance (-1) 0 [((0 : Chan), (0 : Chan), (127 : Chan))] = [(0, 0, 158)] := by
  simp only [adjustWhiteBalance]
  rw [if_neg (by norm_num)]
  simp only [List.map]
  rw [show wbChan (1 + (-1 : ℚ) * (1/4)) (0 : Chan) = (0 : Chan) by
        apply wbChan_in_range <;> norm_num [show ((0 : Chan)).val = 0 from rfl],
      show wbChan (1 - (0 : ℚ) * (1/4)) (0 : Chan) = (0 : Chan) by
        apply wbChan_in_range <;> norm_num [show ((0 : Chan)).val = 0 from rfl],
      show wbChan (1 - (-1 : ℚ) * (1/4)) (127 : Chan) = (158 : Chan) by
        apply wbChan_in_range <;> norm_num [show ((127 : Chan)).val = 127 from rfl]]

lemma wb_warm_on_255 :
    adjustWhiteBalance (-1) 0 [((0 : Chan), (0 : Chan), (255 : Chan))] = [(0, 0, 255)] := by
  simp only [adjustWhiteBalance]
  rw [if_neg (by norm_num)]
  simp only [List.map]
  rw [show wbChan (1 + (-1 : ℚ) * (1/4)) (0 : Chan) = (0 : Chan) by
        apply wbChan_in_range <;> norm_num [show ((0 : Chan)).val = 0 from rfl],
      show wbChan (1 - (0 : ℚ) * (1/4)) (0 : Chan) = (0 : Chan) by
        apply wbChan_in_range <;> norm_num [show ((0 : Chan)).val = 0 from rfl],
      show wbChan (1 - (-1 : ℚ) * (1/4)) (255 : Chan) = (255 : Chan) by
        apply wbChan_clamp_top
        norm_num [show ((255 : Chan)).val = 255 from rfl]]

lemma toneStage_ce :
    toneStage (1/2) 1 (-1) 0 1 [((0 : Chan), (0 : Chan), (255 : Chan))] = [(0, 0, 158)] := by
  simp only [toneStage]
  rw [if_pos (show (1/2 : ℚ) ≠ 1 by norm_num),
      if_pos (Or.inl (show (-1 : ℚ) ≠ 0 by norm_num)),
      if_neg (show ¬ ((1 : ℚ) ≠ 1) by norm_num),
      if_neg (show ¬ ((1 : ℚ) ≠ 1) by norm_num),
      enhanceBrightness_half_blue, wb_warm_on_127]

lemma toneSpecOrder_ce :
    toneSpecOrder (1/2) 1 (-1) 0 1 [((0 : Chan), (0 : Chan), (255 : Chan))] = [(0, 0, 127)] := by
  simp only [toneSpecOrder]
  rw [if_pos (Or.inl (show (-1 : ℚ) ≠ 0 by norm_num)),
      if_pos (show (1/2 : ℚ) ≠ 1 by norm_num),
      if_neg (show ¬ ((1 : ℚ) ≠ 1) by norm_num),
      if_neg (show ¬ ((1 : ℚ) ≠ 1) by norm_num),
      wb_warm_on_255, enhanceBrightness_half_blue]

/-- C3 counterexample: on the blue pixel (0,0,255) with brightness 0.5
and temperature -1, the source's order (brightness before white
balance) yields blue 158 while the claimed order (white balance first)
yields blue 127 — the tone stage does not apply white balance first. -/
theorem tone_order_differs :
    toneStage (1/2) 1 (-1) 0 1 [((0 : Chan), (0 : Chan), (255 : Chan))] ≠
      toneSpecOrder (1/2) 1 (-1) 0 1 [((0 : Chan), (0 : Chan), (255 : Chan))] := by
  rw [toneStage_ce, toneSpecOrder_ce]
  decide

/-- C3 amended: the tone stage applies its steps in the fixed order
(1) brightness, (2) white-balance correction, (3) contrast,
(4) saturation — equal to the unguarded composition in that order,
because each step is skipped exactly when its parameter equals its
identity value, and each enhancement at its identity parameter is the
identity on the buffer. -/
theorem tone_order_amended (b sa t tn c : ℚ) (img : Image) :
    toneStage b sa t tn c img =
      enhanceColor sa (enhanceContrast c (adjustWhiteBalance t tn (enhanceBrightness b img)))
    ∧ enhanceBrightness 1 img = img
    ∧ adjustWhiteBalance 0 0 img = img
    ∧ enhanceContrast 1 img = img
    ∧ enhanceColor 1 img = img := by
  refine ⟨?_, enhanceBrightness_one img, adjustWhiteBalance_zero img,
    enhanceContrast_one img, enhanceColor_one img⟩
  simp only [toneStage]
  by_cases hb : b = 1 <;> by_cases ht : t = 0 <;> by_cases htn : tn = 0 <;>
    by_cases hc : c = 1 <;> by_cases hs : sa = 1 <;>
      simp [hb, ht, htn, hc, hs, enhanceBrightness_one, adjustWhiteBalance_zero,
        enhanceContrast_one, enhanceColor_one]

/-! Claim C8. -/

lemma sCurveRaw_lt {x y : ℕ} (h : x < y) : sCurveRaw x < sCurveRaw y := by
  unfold sCurveRaw
  have hxy : (x : ℝ) < (y : ℝ) := by exact_mod_cast h
  have harg : -(5 : ℝ) * ((y : ℝ) / 255 - 1/2) < -(5 : ℝ) * ((x : ℝ) / 255 - 1/2) := by
    nlinarith
  have hexp : Real.exp (-(5 : ℝ) * ((y : ℝ) / 255 - 1/2)) <
      Real.exp (-(5 : ℝ) * ((x : ℝ) / 255 - 1/2)) := Real.exp_lt_exp.mpr harg
  have hposy : (0 : ℝ) < 1 + Real.exp (-(5 : ℝ) * ((y : ℝ) / 255 - 1/2)) := by positivity
  exact div_lt_div_of_pos_left (by norm_num) hposy (by linarith)

lemma sCurveMin_eq : sCurveMin = sCurveRaw 0 := by
  unfold sCurveMin
  apply le_antisymm
  · exact Finset.inf'_le _ (Finset.mem_range.mpr (by norm_num))
  · apply Finset.le_inf'
    intro x _
    rcases Nat.eq_zero_or_pos x with h | h
    · rw [h]
    · exact le_of_lt (sCurveRaw_lt h)

lemma sCurveMax_eq : sCurveMax = sCurveRaw 255 := by
  unfold sCurveMax
  apply le_antisymm
  · apply Finset.sup'_le
    intro x hx
    have hx' : x ≤ 255 := by
      have := Finset.mem_range.mp hx
      omega
    rcases eq_or_lt_of_le hx' with h | h
    · rw [h]
    · exact le_of_lt (sCurveRaw_lt h)
  · exact Finset.le_sup' _ (Finset.mem_range.mpr (by norm_num))

/-- C8: the S-Curve table fixes the black and white points (0 ↦ 0 and
255 ↦ 255), the Soft-High table is the identity below 128, and any
curve name other than the recognized ones leaves the image unchanged,
exactly as Linear does. -/
theorem curve_tables_boundary :
    sCurveTable 0 = 0 ∧ sCurveTable 255 = 255
    ∧ (∀ x : ℕ, x < 128 → softHighTable x = x)
    ∧ (∀ (img : Image) (ct : String), ct ≠ "S-Curve" → ct ≠ "Soft-High" →
        ct ≠ "Lift-Shadow" → applyCurve img ct = img) := by
  refine ⟨?_, ?_, ?_, ?_⟩
  · unfold sCurveTable
    rw [sCurveMin_eq, sub_self, zero_mul, zero_div, Int.floor_zero, Int.toNat_zero]
  · have hne : sCurveRaw 255 - sCurveRaw 0 ≠ 0 :=
      sub_ne_zero.mpr (ne_of_gt (sCurveRaw_lt (by norm_num)))
    unfold sCurveTable
    rw [sCurveMin_eq, sCurveMax_eq, mul_comm, mul_div_assoc, div_self hne, mul_one,
      show ((255 : ℝ)) = ((255 : ℕ) : ℝ) by norm_num, Int.floor_natCast]
    rfl
  · intro x hx
    unfold softHighTable
    rw [if_pos hx]
  · intro img ct h2 h3 h4
    unfold applyCurve
    by_cases h1 : ct = "Linear" ∨ ct = ""
    · rw [if_pos h1]
    · rw [if_neg h1, if_neg h2, if_neg h3, if_neg h4]

/-- Witness for C8 on a concrete sub-midpoint value and a concrete
unrecognized curve name. -/
theorem curve_tables_boundary_witness :
    softHighTable 100 = 100 ∧ applyCurve [(1, 2, 3)] "Bogus" = [(1, 2, 3)] :=
  ⟨curve_tables_boundary.2.2.1 100 (by norm_num),
   curve_tables_boundary.2.2.2 [(1, 2, 3)] "Bogus" (by decide) (by decide) (by decide)⟩

/-! Claim C7. -/

set_option maxRecDepth 8000 in
/-- C7: LUT resolution follows the three-step algorithm — an existing
filesystem path is used directly; otherwise the lowercased basename is
looked up in the index and the first registered path returned;
otherwise the fuzzy fallback succeeds exactly when some indexed key
reaches the 0.6 similarity threshold.  Concretely, with only
`fuji_velvia.cube` indexed, `fuji_velvi.cube` resolves and
`xyz_completely_unrelated.cube` does not. -/
theorem lut_resolution_algorithm :
    (∀ (env : Env) (n : String), env.pathExists n = true → resolveLut env n = some n)
    ∧ (∀ (env : Env) (n p : String) (rest : List String), env.pathExists n = false →
        indexGet env.index (lookupChars n) = some (p :: rest) →
        resolveLut env n = some p)
    ∧ (∀ (env : Env) (n : String), wfIndex env → env.pathExists n = false →
        indexGet env.index (lookupChars n) = none →
        ((resolveLut env n).isSome = true ↔
          ∃ k ∈ indexKeys env.index, ratioOK k.toList (lookupChars n) = true))
    ∧ resolveLut envFuji "fuji_velvi.cube" = some "luts/fuji_velvia.cube"
    ∧ resolveLut envFuji "xyz_completely_unrelated.cube" = none := by
  refine ⟨?_, ?_, ?_, by decide, by decide⟩
  · intro env n hp
    simp [resolveLut, hp]
  · intro env n p rest hp hname
    simp [resolveLut, hp, hname]
  · intro env n hwf hp hmiss
    simp only [resolveLut, hp, hmiss, Bool.false_eq_true, if_false]
    cases hbm : bestMatch ((indexKeys env.index).map String.toList) (lookupChars n) with
    | none =>
      apply iff_of_false
      · simp
      · rintro ⟨k, hk, hro⟩
        have hfil := (bestMatch_none_iff _ _).mp hbm
        have hmem : k.toList ∈ ((indexKeys env.index).map String.toList).filter
            fun kk => ratioOK kk (lookupChars n) :=
          List.mem_filter.mpr ⟨List.mem_map_of_mem _ hk, hro⟩
        rw [hfil] at hmem
        exact absurd hmem (by simp)
    | some key =>
      obtain ⟨hkmem, hro⟩ := bestMatch_some_mem hbm
      obtain ⟨s, hsmem, hs⟩ := List.mem_map.mp hkmem
      apply iff_of_true
      · obtain ⟨e, hemem, he1⟩ := List.mem_map.mp hsmem
        have hfind : ((env.index.find? fun e => e.1.toList = key)).isSome = true := by
          apply List.find?_isSome.mpr
          refine ⟨e, hemem, ?_⟩
          simp only [decide_eq_true_eq]
          rw [he1]
          exact hs
        obtain ⟨e', hfe⟩ := Option.isSome_iff_exists.mp hfind
        have he'mem : e' ∈ env.index := List.mem_of_find?_eq_some hfe
        have hne : e'.2 ≠ [] := hwf e' he'mem
        simp only [indexGet, hfe, Option.map_some, Option.getD_some]
        simpa using hne
      · exact ⟨s, hsmem, by rw [hs]; exact hro⟩

/-- Witness for C7: the exact-path step, the case-insensitive name
step, and the fuzzy-fallback characterization at concrete inputs. -/
theorem lut_resolution_algorithm_witness :
    resolveLut envExact "luts/velvia.cube" = some "luts/velvia.cube"
    ∧ resolveLut envFuji "FUJI_VELVIA.cube" = some "luts/fuji_velvia.cube"
    ∧ ((resolveLut envEmpty "anything.cube").isSome = true ↔
        ∃ k ∈ indexKeys envEmpty.index, ratioOK k.toList (lookupChars "anything.cube") = true) :=
  ⟨lut_resolution_algorithm.1 envExact "luts/velvia.cube" (by decide),
   lut_resolution_algorithm.2.1 envFuji "FUJI_VELVIA.cube" "luts/fuji_velvia.cube" []
     (by decide) (by decide),
   lut_resolution_algorithm.2.2.1 envEmpty "anything.cube" (by simp [wfIndex, envEmpty])
     (by decide) (by decide)⟩

end LutEngine
